import Mathlib

/-!
Verification of the unicore-go request-authentication and multi-tenant-context
layer (interceptor pipeline, sanitizer, pagination helpers) against its
natural-language specification.

The Go sources are shallowly embedded:
- Go runtime values reached by the reflection-based sanitizer are modelled by
  the inductive `GoValue` (nil interface / nil pointer, string, integer, bool,
  non-nil pointer, struct with named fields).
- A Go panic is modelled as `Except.error` carrying the panic message; normal
  returns are `Except.ok`.
- `context.Context` is modelled as an association list of key/value pairs,
  `context.WithValue` as consing, `Context.Value` as first-match lookup.
- Machine-integer conversions that can overflow (`int32(...)` on an `int64`
  quotient) are modelled explicitly with twos-complement reductions
  `wrap32` / `wrap64` on `Int`.
-/

namespace Unicore

/- Model of a Go runtime value as seen by the `reflect`-based sanitizer in
middleware.go. `vnil` is a nil interface or nil pointer; `vptr` is a non-nil
pointer; `vstruct` carries the ordered, named fields of a struct value.
The reflect kind of a field is recovered from the shape of its value. -/
mutual

inductive GoValue where
  | vnil : GoValue
  | vstr : String → GoValue
  | vint : Int → GoValue
  | vbool : Bool → GoValue
  | vptr : GoValue → GoValue
  | vstruct : GoFields → GoValue
  deriving DecidableEq

inductive GoFields where
  | fnil : GoFields
  | fcons : String → GoValue → GoFields → GoFields
  deriving DecidableEq

end

/-- A Go struct field is accessible through `reflect.Value.Interface`
(`CanInterface`) exactly when it is exported, i.e. its name starts with an
upper-case letter. -/
def isExported (s : String) : Bool :=
  match s.data with
  | [] => false
  | c :: _ => c.isUpper

/-- Model of `strings.ToLower` restricted to ASCII identifiers (Go struct
field names are ASCII identifiers). -/
def lowerStr (s : String) : String :=
  String.mk (s.data.map Char.toLower)

/- Model of `reflect.Zero(t)`: the zero value of the type of the given
value (the model recovers the static type from the shape of the value; the zero
of a pointer type is a nil pointer, modelled by `vnil`). -/
mutual

def zeroOf : GoValue → GoValue
  | .vnil => .vnil
  | .vstr _ => .vstr ""
  | .vint _ => .vint 0
  | .vbool _ => .vbool false
  | .vptr _ => .vnil
  | .vstruct fs => .vstruct (zeroFields fs)
termination_by structural v => v

def zeroFields : GoFields → GoFields
  | .fnil => .fnil
  | .fcons n v rest => .fcons n (zeroOf v) (zeroFields rest)
termination_by structural fs => fs

end

/- Embedding of `sanitize(v interface{}, sensitiveFields map[string]struct{})`
from middleware.go. A nil input is returned as nil; a non-nil pointer is
dereferenced; a non-struct value is returned unchanged (the original `v`,
pointer wrapper included); for a struct, a fresh copy is built field by field
and `copied.Addr().Interface()` — a pointer to the copy — is returned, which
the model renders as `vptr` around the copied struct. A Go panic raised while
copying (notably `reflect.Value.Set` with an unassignable value) is modelled
as `Except.error`. -/
mutual

def sanitize : GoValue → List String → Except String GoValue
  | .vnil, _ => .ok .vnil
  | .vptr (.vstruct fs), sens => do
      let fs2 ← sanitizeFields fs sens
      pure (.vptr (.vstruct fs2))
  | .vstruct fs, sens => do
      let fs2 ← sanitizeFields fs sens
      pure (.vptr (.vstruct fs2))
  | v, _ => .ok v
termination_by structural v => v

def sanitizeFields : GoFields → List String → Except String GoFields
  | .fnil, _ => .ok .fnil
  | .fcons name value rest, sens => do
      let v2 ←
        if !(isExported name) then
          -- `!value.CanInterface()` → `continue`: the copy keeps this
          -- field at its zero value.
          pure (zeroOf value)
        else if sens.contains (lowerStr name) then
          match value with
          | .vstr _ => pure (GoValue.vstr "[REDACTED]")
          | _ => pure (zeroOf value)
        else
          match value with
          | .vstruct _ => do
              let s ← sanitize value sens
              -- `copied.Field(i).Set(reflect.ValueOf(sanitized))`: the field
              -- has struct type, so Set panics unless the recursive result is
              -- a struct value of that type.
              match s with
              | .vstruct fs2 => pure (GoValue.vstruct fs2)
              | _ =>
                  Except.error "reflect.Set: value of type *T is not assignable to type T"
          | _ => pure value
      let rest2 ← sanitizeFields rest sens
      pure (.fcons name v2 rest2)
termination_by structural fs => fs

end

/-- The sensitive-field set built by `sanitizeRequest` in middleware.go
(the `"apiKey"` key is unreachable, since looked-up names are lowercased,
but it is part of the source map). -/
def sensitiveFields : List String :=
  ["password", "token", "secret", "apikey", "apiKey", "auth"]

/-- Embedding of `(*grpcAuthMiddleware).sanitizeRequest`: `sanitize` applied
with the fixed sensitive-field set. -/
def sanitizeRequest (req : GoValue) : Except String GoValue :=
  sanitize req sensitiveFields

/-- Embedding of `jwt.RegisteredClaims` (external library type embedded in
`UserAuthClaims`): the standard registered claim fields. -/
structure RegisteredClaims where
  Issuer : String
  Subject : String
  Audience : List String
  ExpiresAt : Option Int
  NotBefore : Option Int
  IssuedAt : Option Int
  ID : String
  deriving DecidableEq

/-- Embedding of `RealmAccess` from types.go. -/
structure RealmAccess where
  Roles : List String
  deriving DecidableEq

/-- Embedding of `AccountRoles` from types.go. -/
structure AccountRoles where
  Roles : List String
  deriving DecidableEq

/-- Embedding of `ResourceAccess` from types.go. -/
structure ResourceAccess where
  Account : AccountRoles
  deriving DecidableEq

/-- Embedding of `UserAuthClaims` from types.go (the decoded JWT claims). -/
structure UserAuthClaims where
  Exp : Int
  Iat : Int
  Jti : String
  Iss : String
  Aud : List String
  Id : String
  Typ : String
  Azp : String
  Sid : String
  Acr : String
  AllowedOrigins : List String
  RealmAccessField : RealmAccess
  ResourceAccessField : ResourceAccess
  Scope : String
  EmailVerified : Bool
  Organization : List String
  Name : String
  PreferredUsername : String
  GivenName : String
  FamilyName : String
  Email : String
  Registered : RegisteredClaims
  deriving DecidableEq

/-- A claims value with every field zeroed, used to instantiate theorems at
concrete inputs. -/
def emptyClaims : UserAuthClaims :=
  ⟨0, 0, "", "", [], "", "", "", "", "", [], ⟨[]⟩, ⟨⟨[]⟩⟩, "", false, [], "",
    "", "", "", "", ⟨"", "", [], none, none, none, ""⟩⟩

/-- A value stored in a `context.Context`: the pipeline stores either a tenant
id string or a `*UserAuthClaims`. -/
inductive CtxVal where
  | str : String → CtxVal
  | claims : UserAuthClaims → CtxVal
  deriving DecidableEq

/-- Model of `context.Context`: an association list of key/value pairs, most
recently added first. -/
abbrev Ctx := List (String × CtxVal)

/-- Model of `context.WithValue`. -/
def ctxWithValue (ctx : Ctx) (k : String) (v : CtxVal) : Ctx :=
  (k, v) :: ctx

/-- Model of `Context.Value`: the most recently stored value for the key, if
any. -/
def ctxValue (ctx : Ctx) (k : String) : Option CtxVal :=
  (ctx.find? (fun p => p.1 == k)).map (·.2)

/-- Embedding of the constant `ContextKeyUser` from unicore.go. -/
def ContextKeyUser : String := "UserClaimsKey"

/-- Embedding of the constant `XTenantKey` from unicore.go. -/
def XTenantKey : String := "x-tenant-id"

/-- Connect status codes used by this layer. -/
inductive Code where
  | invalid_argument : Code
  | unauthenticated : Code
  | internal : Code
  deriving DecidableEq

/-- Embedding of `*connect.Error`: a status code and a message, as built by
`connect.NewError`. -/
structure ConnectError where
  code : Code
  message : String
  deriving DecidableEq

/-- Embedding of `ErrMissingTenantHeader` from unicore.go:
`connect.NewError(connect.CodeInvalidArgument, errors.New("x-tenant-id is required in the header"))`. -/
def ErrMissingTenantHeader : ConnectError :=
  ⟨.invalid_argument, "x-tenant-id is required in the header"⟩

/-- Embedding of `ErrFailedParsingTokenClaims` from unicore.go:
`connect.NewError(connect.CodeInvalidArgument, errors.New("token claims could not be parsed"))`. -/
def ErrFailedParsingTokenClaims : ConnectError :=
  ⟨.invalid_argument, "token claims could not be parsed"⟩

/-- Embedding of `ErrInvalidToken` from unicore.go. -/
def ErrInvalidToken : ConnectError :=
  ⟨.unauthenticated, "invalid token"⟩

/-- Embedding of `ErrMissingOrInvalidToken` from unicore.go. -/
def ErrMissingOrInvalidToken : ConnectError :=
  ⟨.unauthenticated, "missing or invalid token"⟩

/-- Model of a `connect.AnyRequest`: its headers (`req.Header()`), its
fully-qualified procedure name (`req.Spec().Procedure`) and its runtime
representation as a Go value (what the reflection-based sanitizer sees when
the request is passed to it). -/
structure Request where
  header : List (String × String)
  procedure : String
  body : GoValue

/-- Model of `http.Header.Get` on the modelled header list (keys are taken to
be in canonical form): the first value for the key, or `""` when the key is
absent. -/
def headerGet (h : List (String × String)) (k : String) : String :=
  ((h.find? (fun p => p.1 == k)).map (·.2)).getD ""

/-- Model of `connect.UnaryFunc`: `(ctx, req) → (resp, error)` where exactly
one of resp/error is meaningful. -/
abbrev UnaryFunc := Ctx → Request → Except ConnectError GoValue

/-- Model of an `oidc.IDToken` as far as this pipeline uses it: its
`Claims(&claims)` decoding step either fails or yields a `UserAuthClaims`. -/
structure IDToken where
  claimsResult : Except String UserAuthClaims

/-- Model of the `Authenticator` collaborator interface: header-token
extraction, and the OIDC verifier obtained through `GetVerifier()` composed
with its `Verify(ctx, token)` call. -/
structure Authenticator where
  ExtractHeaderToken : Request → Except String String
  Verify : Ctx → String → Except String IDToken

/-- Embedding of `(*grpcAuthMiddleware).UnaryTenantInterceptor` from
middleware.go. -/
def UnaryTenantInterceptor (next : UnaryFunc) : UnaryFunc :=
  fun ctx req =>
    let tenantID := headerGet req.header XTenantKey
    if tenantID == "" then
      .error ErrMissingTenantHeader
    else
      next (ctxWithValue ctx XTenantKey (.str tenantID)) req

/-- Embedding of `(*grpcAuthMiddleware).UnaryTokenInterceptor(routes ...string)`
from middleware.go. -/
def UnaryTokenInterceptor (auth : Authenticator) (routes : List String)
    (next : UnaryFunc) : UnaryFunc :=
  fun ctx req =>
    let fullMethod := req.procedure
    if routes.contains fullMethod then
      next ctx req
    else
      match auth.ExtractHeaderToken req with
      | .error e => .error ⟨.unauthenticated, "missing or invalid token: " ++ e⟩
      | .ok token =>
        match auth.Verify ctx token with
        | .error e => .error ⟨.unauthenticated, "invalid token: " ++ e⟩
        | .ok idToken =>
          match idToken.claimsResult with
          | .error e => .error ⟨.internal, "failed to parse token claims: " ++ e⟩
          | .ok claims =>
            next (ctxWithValue ctx ContextKeyUser (.claims claims)) req

/-- Embedding of `(*contextHelper).GetUserClaims` from unicore.go:
`ctx.Value(ContextKeyUser).(*UserAuthClaims)` is an unchecked type assertion,
which panics (modelled as `Except.error`) when the key is absent or holds a
value of another type. -/
def GetUserClaims (ctx : Ctx) : Except String UserAuthClaims :=
  match ctxValue ctx ContextKeyUser with
  | some (.claims c) => .ok c
  | _ => .error "panic: interface conversion"

/-- A structured log record emitted through the zap logger by the logging
interceptor: an info record carries a request or response payload and, for
the completion record, the call duration; a failure record carries the
returned error and the call duration. -/
inductive LogEntry where
  | info : String → String → GoValue → Option Nat → LogEntry
  | failure : String → String → ConnectError → Nat → LogEntry
  deriving DecidableEq

/-- Embedding of `(*grpcAuthMiddleware).LoggingUnaryInterceptor` from
middleware.go. Wall-clock time is abstracted: `duration` is the elapsed time
`time.Since(start)` observed for the inner call. The interceptor sanitizes
the inbound request (a panic inside `sanitizeRequest` propagates, hence the
outer `Except String`), logs it with the route name, delegates to `next`,
then logs either the failure or the completion — note the completion record
carries `resp` itself, not a sanitized copy — and returns the result of `next`
unchanged. -/
def LoggingUnaryInterceptor (next : UnaryFunc) (ctx : Ctx) (request : Request)
    (duration : Nat) : Except String (Except ConnectError GoValue × List LogEntry) := do
  let fullMethod := request.procedure
  let sanitizedReq ← sanitizeRequest request.body
  let received := LogEntry.info "gRPC request received" fullMethod sanitizedReq none
  match next ctx request with
  | .error e =>
      pure (.error e,
        [received, LogEntry.failure "gRPC request failed" fullMethod e duration])
  | .ok resp =>
      pure (.ok resp,
        [received, LogEntry.info "gRPC request completed" fullMethod resp (some duration)])

/-- Twos-complement reduction of an integer to the signed 32-bit range,
modelling Go `int32` arithmetic and the Go `int32(...)` conversion. -/
def wrap32 (n : Int) : Int :=
  (n + 2 ^ 31) % 2 ^ 32 - 2 ^ 31

/-- Twos-complement reduction of an integer to the signed 64-bit range,
modelling Go `int64` arithmetic. -/
def wrap64 (n : Int) : Int :=
  (n + 2 ^ 63) % 2 ^ 64 - 2 ^ 63

/-- Embedding of the generated `commonv1.PageRequest` protobuf message at the
interface boundary (the generated type is an external dependency; only the
getters used by `WithPaginationScope` are modelled). -/
inductive SortDirection where
  | unspecified : SortDirection
  | asc : SortDirection
  | desc : SortDirection
  deriving DecidableEq

/-- Page request fields, as read through the protobuf getters. `page` and
`limit` are protobuf `int32` scalars; they are carried as `Int`, and the
32-bit wrap of the Go arithmetic on them is applied at the arithmetic site
with `wrap32`. -/
structure PageRequest where
  page : Int
  limit : Int
  sort : String
  direction : SortDirection

/-- Protobuf getter `GetPage` (0 on a nil receiver). -/
def getPage (p : Option PageRequest) : Int :=
  match p with
  | none => 0
  | some p => p.page

/-- Protobuf getter `GetLimit` (0 on a nil receiver). -/
def getLimit (p : Option PageRequest) : Int :=
  match p with
  | none => 0
  | some p => p.limit

/-- Protobuf getter `GetSort` (empty on a nil receiver). -/
def getSort (p : Option PageRequest) : String :=
  match p with
  | none => ""
  | some p => p.sort

/-- Protobuf getter `GetDirection` (unspecified on a nil receiver). -/
def getDirection (p : Option PageRequest) : SortDirection :=
  match p with
  | none => .unspecified
  | some p => p.direction

/-- Model of a `*gorm.DB` query builder as far as the two scopes touch it:
the last `Limit` and `Offset` applied and the ordered list of `Order`
clauses. -/
structure DB where
  limitv : Option Int
  offsetv : Option Int
  orders : List String

/-- Model of `gorm.DB.Limit`. -/
def DB.LimitTo (db : DB) (n : Int) : DB :=
  ⟨some n, db.offsetv, db.orders⟩

/-- Model of `gorm.DB.Offset`. -/
def DB.OffsetBy (db : DB) (n : Int) : DB :=
  ⟨db.limitv, some n, db.orders⟩

/-- Model of `gorm.DB.Order`: appends an order clause. -/
def DB.OrderBy (db : DB) (clause : String) : DB :=
  ⟨db.limitv, db.offsetv, db.orders ++ [clause]⟩

/-- Embedding of `WithPaginationScope` from unicore.go. -/
def WithPaginationScope (pagination : Option PageRequest) : DB → DB :=
  fun db =>
    let page0 := getPage pagination
    let page := if page0 ≤ 0 then 1 else page0
    let limit0 := getLimit pagination
    let limit := if limit0 ≤ 0 then 20 else limit0
    -- `offset := (page - 1) * limit` is `int32` multiplication in Go and
    -- wraps on overflow (the subtraction cannot wrap: after the default,
    -- `1 ≤ page ≤ 2^31 - 1`).
    let offset := wrap32 ((page - 1) * limit)
    let db := (db.LimitTo limit).OffsetBy offset
    let sort0 := getSort pagination
    let sort := if sort0 = "" then "created_at" else sort0
    -- `order` starts as "desc"; the switch overrides it for ASC and DESC.
    let order :=
      match getDirection pagination with
      | .asc => "asc"
      | .desc => "desc"
      | .unspecified => "desc"
    db.OrderBy (sort ++ " " ++ order)

/-- Embedding of the generic `PagedResult[T]` from types.go. `Total` is the
Go `int64` field, represented as an unbounded `Int`; theorems that depend on
the 64-bit width state it explicitly via `wrap64`. -/
structure PagedResult (T : Type) where
  Items : T
  Total : Int

/-- Embedding of `(*PagedResult[T]).GetTotalPages(limit int32)` from
unicore.go: 0 for a nil receiver or `limit <= 0`, otherwise
`int32((p.Total + int64(limit) - 1) / int64(limit))` with Go `int64`
addition (wrapping), Go integer division (truncation toward zero) and the
final wrapping `int32` conversion. -/
def GetTotalPages {T : Type} (p : Option (PagedResult T)) (limit : Int) : Int :=
  match p with
  | none => 0
  | some p =>
    if limit ≤ 0 then 0
    else wrap32 (Int.tdiv (wrap64 (p.Total + limit - 1)) limit)

end Unicore

namespace Unicore

/-- C1: for every call whose tenant header is absent or empty, the Tenant
Interceptor returns `ErrMissingTenantHeader` and the next handler is never
invoked (the result is the same constant error for every `next`); for every
call with a non-empty tenant header `t`, it invokes `next` with the context
augmented by `t` under the tenant key. -/
theorem unaryTenantInterceptor_spec (ctx : Ctx) (req : Request) :
    (headerGet req.header XTenantKey = "" →
      ∀ next : UnaryFunc,
        UnaryTenantInterceptor next ctx req = .error ErrMissingTenantHeader) ∧
    (∀ t : String, headerGet req.header XTenantKey = t → t ≠ "" →
      ∀ next : UnaryFunc,
        UnaryTenantInterceptor next ctx req
          = next (ctxWithValue ctx XTenantKey (.str t)) req) := by
  constructor
  · intro h next
    simp [UnaryTenantInterceptor, h]
  · intro t ht hne next
    simp [UnaryTenantInterceptor, ht, hne]

/-- Witness for C1 at concrete calls: a request with no headers is rejected
with `ErrMissingTenantHeader`; a request carrying tenant id `"acme"` reaches
the handler with the augmented context. -/
theorem unaryTenantInterceptor_spec_witness :
    UnaryTenantInterceptor (fun _ _ => .ok .vnil) [] ⟨[], "/pkg.Svc/Do", .vnil⟩
        = .error ErrMissingTenantHeader ∧
    UnaryTenantInterceptor
        (fun c _ => if ctxValue c XTenantKey = some (.str "acme") then .ok (.vstr "seen") else .error ErrMissingTenantHeader)
        [] ⟨[(XTenantKey, "acme")], "/pkg.Svc/Do", .vnil⟩
        = .ok (.vstr "seen") :=
  ⟨(unaryTenantInterceptor_spec [] ⟨[], "/pkg.Svc/Do", .vnil⟩).1 rfl _,
   (unaryTenantInterceptor_spec [] ⟨[(XTenantKey, "acme")], "/pkg.Svc/Do", .vnil⟩).2
      "acme" rfl (by decide) _⟩

/-- C2: for every call whose procedure is in the exempt-route list, the Token
Interceptor is `next ctx req` — no token extraction, verification or context
change, whatever the authenticator and headers. -/
theorem unaryTokenInterceptor_exempt (auth : Authenticator) (routes : List String)
    (next : UnaryFunc) (ctx : Ctx) (req : Request)
    (h : routes.contains req.procedure = true) :
    UnaryTokenInterceptor auth routes next ctx req = next ctx req := by
  have hm : req.procedure ∈ routes := by simpa using h
  simp [UnaryTokenInterceptor, hm]

/-- Witness for C2: a health-check route in the exempt list passes straight
through even though the authenticator would reject its (absent) header. -/
theorem unaryTokenInterceptor_exempt_witness :
    UnaryTokenInterceptor
        ⟨fun _ => .error "no header", fun _ _ => .error "unreachable"⟩
        ["/health/Check"] (fun _ _ => .ok (.vstr "served")) []
        ⟨[], "/health/Check", .vnil⟩
      = .ok (.vstr "served") :=
  unaryTokenInterceptor_exempt _ _ _ _ _ (by decide)

/-- C3: for every call on a non-exempt route whose header token extraction
fails, the Token Interceptor returns the unauthenticated
missing-or-invalid-token error; the result is the same for every handler
(never invoked) and for every verifier (never consulted). -/
theorem unaryTokenInterceptor_extract_failure (auth : Authenticator)
    (routes : List String) (ctx : Ctx) (req : Request) (e : String)
    (hroute : routes.contains req.procedure = false)
    (hext : auth.ExtractHeaderToken req = .error e) :
    (∀ next : UnaryFunc,
      UnaryTokenInterceptor auth routes next ctx req
        = .error ⟨.unauthenticated, "missing or invalid token: " ++ e⟩) ∧
    (∀ verify : Ctx → String → Except String IDToken, ∀ next : UnaryFunc,
      UnaryTokenInterceptor ⟨auth.ExtractHeaderToken, verify⟩ routes next ctx req
        = .error ⟨.unauthenticated, "missing or invalid token: " ++ e⟩) := by
  have hm : req.procedure ∉ routes := by simpa using hroute
  constructor
  · intro next
    simp [UnaryTokenInterceptor, hm, hext]
  · intro verify next
    simp [UnaryTokenInterceptor, hm]
    simp [hext]

/-- Witness for C3 at a concrete call: with no exempt routes and an
authenticator whose extraction fails with "no bearer", the call is rejected
unauthenticated. -/
theorem unaryTokenInterceptor_extract_failure_witness :
    UnaryTokenInterceptor
        ⟨fun _ => .error "no bearer", fun _ _ => .ok ⟨.ok emptyClaims⟩⟩ []
        (fun _ _ => .ok .vnil) [] ⟨[], "/pkg.Svc/Do", .vnil⟩
      = .error ⟨.unauthenticated, "missing or invalid token: no bearer"⟩ :=
  (unaryTokenInterceptor_extract_failure
      ⟨fun _ => .error "no bearer", fun _ _ => .ok ⟨.ok emptyClaims⟩⟩ []
      [] ⟨[], "/pkg.Svc/Do", .vnil⟩ "no bearer" (by decide) rfl).1 _

/-- C4 (code evaluation): a struct whose `Password` string field has a
struct-typed sibling makes `sanitizeRequest` panic in `reflect.Value.Set`
(the recursive call returns `*T`, not assignable to the struct field),
instead of returning the redacted copy; without such a sibling the redacted
copy is produced as claimed. -/
theorem sanitizeRequest_password_sibling_struct_panics :
    sanitizeRequest (.vstruct (.fcons "Password" (.vstr "hunter2")
        (.fcons "Profile" (.vstruct (.fcons "Name" (.vstr "bob") .fnil)) .fnil)))
      = .error "reflect.Set: value of type *T is not assignable to type T" ∧
    sanitizeRequest (.vstruct (.fcons "Password" (.vstr "hunter2")
        (.fcons "User" (.vstr "alice") .fnil)))
      = .ok (.vptr (.vstruct (.fcons "Password" (.vstr "[REDACTED]")
          (.fcons "User" (.vstr "alice") .fnil)))) :=
  ⟨rfl, rfl⟩

/-- C5 (code evaluation): `sanitize` panics on every struct with a nested
struct field — here a one-level nesting holding a `Password` — so sensitive
fields are never redacted at depth; primitives and nil do pass through
unchanged. -/
theorem sanitize_nested_struct_panics :
    sanitize (.vstruct (.fcons "Inner"
        (.vstruct (.fcons "Password" (.vstr "x") .fnil)) .fnil)) sensitiveFields
      = .error "reflect.Set: value of type *T is not assignable to type T" ∧
    sanitize (.vint 42) sensitiveFields = .ok (.vint 42) ∧
    sanitize .vnil sensitiveFields = .ok .vnil :=
  ⟨rfl, rfl, rfl⟩

/-- C6 (code evaluation): on a successful call the logging interceptor logs
the sanitized request, then logs the raw response object — here the response
carries `Token "tok123"` verbatim even though sanitizing it would produce
`Token "[REDACTED]"` — while returning the result of the inner chain unchanged. -/
theorem loggingUnaryInterceptor_logs_raw_response :
    LoggingUnaryInterceptor
        (fun _ _ => .ok (.vstruct (.fcons "Token" (.vstr "tok123") .fnil)))
        [] ⟨[], "/pkg.Svc/Do", .vstruct (.fcons "User" (.vstr "alice") .fnil)⟩ 7
      = .ok (.ok (.vstruct (.fcons "Token" (.vstr "tok123") .fnil)),
          [.info "gRPC request received" "/pkg.Svc/Do"
             (.vptr (.vstruct (.fcons "User" (.vstr "alice") .fnil))) none,
           .info "gRPC request completed" "/pkg.Svc/Do"
             (.vstruct (.fcons "Token" (.vstr "tok123") .fnil)) (some 7)]) ∧
    sanitizeRequest (.vstruct (.fcons "Token" (.vstr "tok123") .fnil))
      = .ok (.vptr (.vstruct (.fcons "Token" (.vstr "[REDACTED]") .fnil))) ∧
    GoValue.vstruct (.fcons "Token" (.vstr "tok123") .fnil)
      ≠ .vptr (.vstruct (.fcons "Token" (.vstr "[REDACTED]") .fnil)) :=
  ⟨rfl, rfl, by decide⟩

/-- C7 (code evaluation): the claims-decode failure inside the interceptor is returned
with internal status, but the exported sentinel `ErrFailedParsingTokenClaims`
is constructed with invalid-argument status, not internal. -/
theorem errFailedParsingTokenClaims_status_mismatch :
    UnaryTokenInterceptor
        ⟨fun _ => .ok "tok", fun _ _ => .ok ⟨.error "bad claims"⟩⟩ []
        (fun _ _ => .ok .vnil) [] ⟨[], "/pkg.Svc/Do", .vnil⟩
      = .error ⟨.internal, "failed to parse token claims: bad claims"⟩ ∧
    ErrFailedParsingTokenClaims.code = .invalid_argument ∧
    ErrFailedParsingTokenClaims.code ≠ .internal :=
  ⟨rfl, rfl, by decide⟩

/-- C8 counterexample: at page 65536 and limit 65536 — both representable
`int32` values — the Go `int32` multiplication wraps: the scope sets offset
`-65536`, not the exact `(page-1)*limit = 4294901760` the claim asserts. -/
theorem withPaginationScope_offset_wrap_counterexample :
    (WithPaginationScope (some ⟨65536, 65536, "", .unspecified⟩)
        ⟨none, none, []⟩).offsetv = some (-65536) ∧
    (WithPaginationScope (some ⟨65536, 65536, "", .unspecified⟩)
        ⟨none, none, []⟩).offsetv ≠ some ((65536 - 1) * 65536) := by
  constructor
  · decide
  · decide

/-- C8 amended: the pagination scope uses effective page `max 1 page` (page 1
whenever the requested page is ≤ 0) and effective limit 20 when the requested
limit is ≤ 0; it sets that limit and sets offset to the 32-bit wrap of
`(page-1)*limit` — equal to the exact product whenever the product is below
`2^31` — and appends an order clause over the sort field (default
`created_at`) and direction (`asc` only when ascending is requested, `desc`
otherwise, descending being the default). -/
theorem withPaginationScope_amended (p : PageRequest) (db : DB) :
    (WithPaginationScope (some p) db).limitv
        = some (if p.limit ≤ 0 then 20 else p.limit) ∧
    (WithPaginationScope (some p) db).offsetv
        = some (wrap32 ((max 1 p.page - 1) * (if p.limit ≤ 0 then 20 else p.limit))) ∧
    ((max 1 p.page - 1) * (if p.limit ≤ 0 then 20 else p.limit) < 2 ^ 31 →
      (WithPaginationScope (some p) db).offsetv
        = some ((max 1 p.page - 1) * (if p.limit ≤ 0 then 20 else p.limit))) ∧
    (WithPaginationScope (some p) db).orders
        = db.orders ++ [(if p.sort = "" then "created_at" else p.sort) ++ " "
            ++ (if p.direction = SortDirection.asc then "asc" else "desc")] := by
  have hpage : (if p.page ≤ 0 then (1 : Int) else p.page) = max 1 p.page := by
    split <;> omega
  have e31 : (2 : Int) ^ 31 = 2147483648 := by norm_num
  have e32 : (2 : Int) ^ 32 = 4294967296 := by norm_num
  have hoff : (WithPaginationScope (some p) db).offsetv
      = some (wrap32 ((max 1 p.page - 1) * (if p.limit ≤ 0 then 20 else p.limit))) := by
    simp [WithPaginationScope, DB.LimitTo, DB.OffsetBy, DB.OrderBy,
      getPage, getLimit, getSort, getDirection, hpage]
  refine ⟨?_, hoff, ?_, ?_⟩
  · simp [WithPaginationScope, DB.LimitTo, DB.OffsetBy, DB.OrderBy,
      getPage, getLimit, getSort, getDirection]
  · intro hlt
    have helim : 0 < (if p.limit ≤ 0 then (20 : Int) else p.limit) := by
      split <;> omega
    have hq0 : 0 ≤ (max 1 p.page - 1) * (if p.limit ≤ 0 then (20 : Int) else p.limit) :=
      mul_nonneg (by omega) (le_of_lt helim)
    have hw : wrap32 ((max 1 p.page - 1) * (if p.limit ≤ 0 then (20 : Int) else p.limit))
        = (max 1 p.page - 1) * (if p.limit ≤ 0 then (20 : Int) else p.limit) := by
      unfold wrap32
      rw [Int.emod_eq_of_lt (by rw [e31]; omega) (by rw [e31] at hlt; rw [e32]; omega)]
      ring
    rw [hoff, hw]
  · cases hd : p.direction <;>
      simp [WithPaginationScope, DB.LimitTo, DB.OffsetBy, DB.OrderBy,
        getPage, getLimit, getSort, getDirection, hd]

/-- Witness for C8 at a concrete page request exercising the defaults: page 0
and limit 0 become page 1 and limit 20, the offset is exactly 0 (the product
is in range), and the order clause is the default `created_at desc`. -/
theorem withPaginationScope_amended_witness :
    (WithPaginationScope (some ⟨0, 0, "", .unspecified⟩) ⟨none, none, []⟩).limitv
        = some 20 ∧
    (WithPaginationScope (some ⟨0, 0, "", .unspecified⟩) ⟨none, none, []⟩).offsetv
        = some 0 ∧
    (WithPaginationScope (some ⟨0, 0, "", .unspecified⟩) ⟨none, none, []⟩).orders
        = ["created_at desc"] := by
  have h := withPaginationScope_amended ⟨0, 0, "", .unspecified⟩ ⟨none, none, []⟩
  refine ⟨?_, ?_, ?_⟩
  · rw [h.1]
    decide
  · rw [h.2.2.1 (by decide)]
    decide
  · rw [h.2.2.2]
    decide

/-- C9 counterexample: at total `2^31` and limit 1 the code returns the
wrapped value `-2^31`, not `ceil(total/limit) = 2^31` — the quotient is
truncated by the `int32` conversion. -/
theorem getTotalPages_overflow_counterexample :
    GetTotalPages (some (⟨(), 2147483648⟩ : PagedResult Unit)) 1 = -2147483648 ∧
    GetTotalPages (some (⟨(), 2147483648⟩ : PagedResult Unit)) 1
      ≠ (2147483648 + 1 - 1) / 1 := by
  constructor
  · decide
  · decide

/-- C9 amended: for limit ≤ 0 the result is 0; for limit > 0, total ≥ 0 and
no int64 overflow in `total + limit - 1`, the result is the twos-complement
int32 reduction of `ceil(total/limit) = (total + limit - 1) / limit`, which
equals that ceiling exactly when the ceiling is below `2^31`. -/
theorem getTotalPages_amended {T : Type} (p : PagedResult T) (limit : Int) :
    (limit ≤ 0 → GetTotalPages (some p) limit = 0) ∧
    (0 < limit → 0 ≤ p.Total → p.Total + limit - 1 < 2 ^ 63 →
      GetTotalPages (some p) limit = wrap32 ((p.Total + limit - 1) / limit) ∧
      ((p.Total + limit - 1) / limit < 2 ^ 31 →
        GetTotalPages (some p) limit = (p.Total + limit - 1) / limit)) := by
  have e63 : (2 : Int) ^ 63 = 9223372036854775808 := by norm_num
  have e64 : (2 : Int) ^ 64 = 18446744073709551616 := by norm_num
  have e31 : (2 : Int) ^ 31 = 2147483648 := by norm_num
  have e32 : (2 : Int) ^ 32 = 4294967296 := by norm_num
  constructor
  · intro h
    simp [GetTotalPages, h]
  · intro hl ht hof
    have hnum : 0 ≤ p.Total + limit - 1 := by omega
    have hw64 : wrap64 (p.Total + limit - 1) = p.Total + limit - 1 := by
      unfold wrap64
      rw [Int.emod_eq_of_lt (by omega) (by rw [e64]; omega)]
      ring
    have htdiv : Int.tdiv (p.Total + limit - 1) limit
        = (p.Total + limit - 1) / limit :=
      Int.tdiv_eq_ediv hnum (le_of_lt hl)
    have hmain : GetTotalPages (some p) limit
        = wrap32 ((p.Total + limit - 1) / limit) := by
      simp [GetTotalPages, not_le.mpr hl, hw64, htdiv]
    refine ⟨hmain, ?_⟩
    intro hlt
    have hq0 : 0 ≤ (p.Total + limit - 1) / limit :=
      Int.ediv_nonneg hnum (le_of_lt hl)
    rw [hmain]
    unfold wrap32
    rw [Int.emod_eq_of_lt (by omega) (by rw [e32]; omega)]
    ring

/-- Witness for C9 at the three examples quoted by the spec: 95 items at limit 20 give 5
pages, 0 items give 0 pages, and limit 0 gives 0. -/
theorem getTotalPages_amended_witness :
    GetTotalPages (some (⟨(), 95⟩ : PagedResult Unit)) 20 = 5 ∧
    GetTotalPages (some (⟨(), 0⟩ : PagedResult Unit)) 20 = 0 ∧
    GetTotalPages (some (⟨(), 1⟩ : PagedResult Unit)) 0 = 0 := by
  refine ⟨?_, ?_, ?_⟩
  · have h := ((getTotalPages_amended (⟨(), 95⟩ : PagedResult Unit) 20).2
      (by decide) (by decide) (by decide)).2 (by decide)
    rw [h]; decide
  · have h := ((getTotalPages_amended (⟨(), 0⟩ : PagedResult Unit) 20).2
      (by decide) (by decide) (by decide)).2 (by decide)
    rw [h]; decide
  · exact (getTotalPages_amended (⟨(), 1⟩ : PagedResult Unit) 0).1 (by decide)

/-- C10: `GetUserClaims` panics (modelled as `Except.error`) on every context
that does not hold a claims value under the user-claims key, and returns the
stored claims exactly when one was stored. -/
theorem getUserClaims_spec (ctx : Ctx) :
    ((∀ c : UserAuthClaims, ctxValue ctx ContextKeyUser ≠ some (.claims c)) →
      GetUserClaims ctx = .error "panic: interface conversion") ∧
    (∀ c : UserAuthClaims, ctxValue ctx ContextKeyUser = some (.claims c) →
      GetUserClaims ctx = .ok c) := by
  constructor
  · intro h
    unfold GetUserClaims
    rcases hv : ctxValue ctx ContextKeyUser with _ | v
    · rfl
    · rcases v with s | c
      · rfl
      · exact absurd hv (h c)
  · intro c h
    unfold GetUserClaims
    rw [h]

/-- Witness for C10: the empty context (Token Interceptor never ran) makes
`GetUserClaims` panic; a context holding claims returns them. -/
theorem getUserClaims_spec_witness :
    GetUserClaims [] = .error "panic: interface conversion" ∧
    GetUserClaims (ctxWithValue [] ContextKeyUser (.claims emptyClaims))
      = .ok emptyClaims :=
  ⟨(getUserClaims_spec []).1 (fun _ h => Option.noConfusion h),
   (getUserClaims_spec (ctxWithValue [] ContextKeyUser (.claims emptyClaims))).2
      emptyClaims rfl⟩

end Unicore
